import Mathlib

/-!
# Verification of the marble-game terrain core

Shallow embedding of the procedural terrain height-field synthesizer, the
terrain–physics bridge, obstacle placement, and the marble dynamics
post-processor of the marble-toss game (`src/js/terrain.js`,
`src/js/game.js`), together with proofs of the specified properties.

Real-valued quantities are modelled over `ℝ`; `Math.sin`, `Math.sqrt`,
`Math.cos` and `Math.pow` become `Real.sin`, `Real.sqrt`, `Real.cos` and
`Real.rpow`.  Calls to `Math.random()` are modelled as explicit input
draws, so every function is a deterministic function of its inputs.
-/

namespace MarbleGame

/-! ## Terrain constructor constants

From the `Terrain` constructor (src/js/terrain.js).  The game instantiates
`new Terrain(this.scene, this.world, 5.0, 64)` (src/js/game.js), matching
the constructor defaults. -/

noncomputable section

def size : ℝ := 5.0
def resolution : ℕ := 64
def circleRadius : ℝ := 2.5
def rimWidth : ℝ := 0.5
def rimHeight : ℝ := 0.05
def holeDepth : ℝ := 0.15
def centerHoleRadius : ℝ := 0.3
def centerHoleDepth : ℝ := 0.2
def bumpiness : ℝ := 0.05
def smallBumpFrequency : ℝ := 0.15
def rockDensity : ℝ := 0.01
def largeRockCount : ℕ := 8
def hillCount : ℕ := 6

/-- `Terrain.noise(nx, ny)`: the deterministic sine-based pseudo-noise helper. -/
def noise (nx ny : ℝ) : ℝ :=
  Real.sin (nx * 10) * Real.sin (ny * 10) * 0.5 +
  Real.sin (nx * 20 + 0.3) * Real.sin (ny * 20 + 0.1) * 0.25 +
  Real.sin (nx * 40 + 0.5) * Real.sin (ny * 40 + 0.7) * 0.125

/-- An entry of `this.rockPositions`: `{x, z, size, height}`. -/
structure Rock where
  x : ℝ
  z : ℝ
  size : ℝ
  height : ℝ

/-- An entry of `this.hillPositions`: `{x, z, radius, height}`. -/
structure Hill where
  x : ℝ
  z : ℝ
  radius : ℝ
  height : ℝ

/-- The `Math.random()` draws consumed by one height sample of the
synthesizer, in the order the code draws them: the micro-bump roll and
value, the sparse small-rock roll and value, and the inside-circle bump
roll and value. -/
structure Draws where
  microRoll : ℝ
  microVal : ℝ
  rockRoll : ℝ
  rockVal : ℝ
  bowlRoll : ℝ
  bowlVal : ℝ

/-! ## The physics heightfield synthesizer

`Terrain.createPhysicsGround` fills the `heights` matrix by evaluating, at
each grid sample's world position `(x, z)`, the expression modelled by
`physicsGroundHeight` below (src/js/terrain.js, the loop body of
`createPhysicsGround`). -/

/-- Contribution of one registered rock to a physics height sample:
half-ellipsoid profile with the physics radius multiplier `1.1`
(`createPhysicsGround`, "Add larger rocks"). -/
def rockContribPhys (x z : ℝ) (r : Rock) : ℝ :=
  let distToRock := Real.sqrt ((x - r.x) * (x - r.x) + (z - r.z) * (z - r.z))
  if distToRock < r.size * 1.1 then
    r.height * Real.sqrt (1 - (distToRock / (r.size * 1.1)) * (distToRock / (r.size * 1.1)))
  else 0

/-- Contribution of one registered hill to a physics height sample:
cosine profile with the physics radius multiplier `1.05`
(`createPhysicsGround`, "Add hills with accurate physics"). -/
def hillContribPhys (x z : ℝ) (h : Hill) : ℝ :=
  let distToHill := Real.sqrt ((x - h.x) * (x - h.x) + (z - h.z) * (z - h.z))
  if distToHill < h.radius * 1.05 then
    h.height * Real.cos ((distToHill / (h.radius * 1.05)) * (Real.pi / 2))
  else 0

/-- One height sample of the physics heightfield, exactly as computed in
the `heights` loop of `Terrain.createPhysicsGround`: layered noise scaled
by distance from center, random micro-bumps, sparse random small rocks,
additive stamping of the registered rocks and hills, and finally the
distance-from-center shaping (center hole parabola / bowl / rim), which
overrides everything inside the center hole. -/
def physicsGroundHeight (rocks : List Rock) (hills : List Hill) (d : Draws) (x z : ℝ) : ℝ :=
  let distFromCenter := Real.sqrt (x * x + z * z)
  let largeNoise := noise (x / size) (z / size)
  let mediumNoise := noise (x / (size * 0.25)) (z / (size * 0.25))
  let smallNoise := noise (x / (size * 0.1)) (z / (size * 0.1))
  let microNoise := noise (x / (size * 0.02)) (z / (size * 0.02))
  let noiseValue := largeNoise * 0.3 + mediumNoise * 0.3 + smallNoise * 0.2 + microNoise * 0.2
  let bumpScale := min 1.0 (distFromCenter / (circleRadius + rimWidth))
  let h0 := 0 + noiseValue * bumpiness * bumpScale
  let h1 := if d.microRoll < 0.5 then h0 + (d.microVal * 0.015 + 0.005) else h0
  let h2 := if d.rockRoll < rockDensity * 1.5 ∧ distFromCenter > circleRadius + 0.1 then
              h1 + (d.rockVal * 0.02 + 0.01)
            else h1
  let h3 := h2 + (rocks.map (rockContribPhys x z)).sum
  let h4 := h3 + (hills.map (hillContribPhys x z)).sum
  if distFromCenter < centerHoleRadius then
    -centerHoleDepth *
      (1 - (distFromCenter / centerHoleRadius) * (distFromCenter / centerHoleRadius))
  else if distFromCenter < circleRadius then
    let normalizedDist := distFromCenter / circleRadius
    let edgeNoise := noise (normalizedDist * 10) (normalizedDist * 5) * 0.2
    let bowlDepth := holeDepth * (1 - Real.rpow normalizedDist (2 + edgeNoise))
    let h5 := h4 - bowlDepth
    if distFromCenter > centerHoleRadius * 2 ∧ d.bowlRoll < 0.05 then h5 + d.bowlVal * 0.012
    else h5
  else if distFromCenter < circleRadius + rimWidth then
    let rimPosition := (distFromCenter - circleRadius) / rimWidth
    let rimNoise := noise (x * 5) (z * 5) * 0.3
    let rimProfile := Real.sin (rimPosition * Real.pi) * (1 + rimNoise)
    h4 + rimHeight * rimProfile
  else h4

/-! ## Stage decomposition of the physics synthesizer

The loop body of `createPhysicsGround` factors into successive stages,
each taking the height accumulated so far.  The stage definitions below
are verbatim slices of `physicsGroundHeight`. -/

/-- Stage: base multi-octave sine pseudo-noise, scaled by distance from
center (`height += noiseValue * this.bumpiness * bumpScale` starting from
`height = 0`). -/
def stageBaseNoise (x z : ℝ) : ℝ :=
  let distFromCenter := Real.sqrt (x * x + z * z)
  let largeNoise := noise (x / size) (z / size)
  let mediumNoise := noise (x / (size * 0.25)) (z / (size * 0.25))
  let smallNoise := noise (x / (size * 0.1)) (z / (size * 0.1))
  let microNoise := noise (x / (size * 0.02)) (z / (size * 0.02))
  let noiseValue := largeNoise * 0.3 + mediumNoise * 0.3 + smallNoise * 0.2 + microNoise * 0.2
  let bumpScale := min 1.0 (distFromCenter / (circleRadius + rimWidth))
  0 + noiseValue * bumpiness * bumpScale

/-- Stage: sparse random micro-bumps (`if (Math.random() < 0.5) height += microBump`). -/
def stageMicroBumps (d : Draws) (h : ℝ) : ℝ :=
  if d.microRoll < 0.5 then h + (d.microVal * 0.015 + 0.005) else h

/-- Stage: sparse random small rocks outside the target circle. -/
def stageSmallRocks (d : Draws) (x z : ℝ) (h : ℝ) : ℝ :=
  let distFromCenter := Real.sqrt (x * x + z * z)
  if d.rockRoll < rockDensity * 1.5 ∧ distFromCenter > circleRadius + 0.1 then
    h + (d.rockVal * 0.02 + 0.01)
  else h

/-- Stage: additive stamping of the registered rock and hill features. -/
def stageFeatures (rocks : List Rock) (hills : List Hill) (x z : ℝ) (h : ℝ) : ℝ :=
  h + (rocks.map (rockContribPhys x z)).sum + (hills.map (hillContribPhys x z)).sum

/-- Stage: distance-from-center shaping — the inverted parabola inside
`centerHoleRadius` (which overrides the height accumulated so far), the
bowl between `centerHoleRadius` and `circleRadius` (subtractive, with a
sparse additive bump), and the rim between `circleRadius` and
`circleRadius + rimWidth` (additive). -/
def stageCenterShaping (d : Draws) (x z : ℝ) (h : ℝ) : ℝ :=
  let distFromCenter := Real.sqrt (x * x + z * z)
  if distFromCenter < centerHoleRadius then
    -centerHoleDepth *
      (1 - (distFromCenter / centerHoleRadius) * (distFromCenter / centerHoleRadius))
  else if distFromCenter < circleRadius then
    let normalizedDist := distFromCenter / circleRadius
    let edgeNoise := noise (normalizedDist * 10) (normalizedDist * 5) * 0.2
    let bowlDepth := holeDepth * (1 - Real.rpow normalizedDist (2 + edgeNoise))
    let h5 := h - bowlDepth
    if distFromCenter > centerHoleRadius * 2 ∧ d.bowlRoll < 0.05 then h5 + d.bowlVal * 0.012
    else h5
  else if distFromCenter < circleRadius + rimWidth then
    let rimPosition := (distFromCenter - circleRadius) / rimWidth
    let rimNoise := noise (x * 5) (z * 5) * 0.3
    let rimProfile := Real.sin (rimPosition * Real.pi) * (1 + rimNoise)
    h + rimHeight * rimProfile
  else h

/-- The evaluation order asserted by the specification: (1) base
pseudo-noise, (2) distance-from-center shaping, (3) feature stamping,
(4) sparse micro-bumps (including the sparse small random rocks), each
later stage overriding or adding onto the earlier ones.  This definition
follows the specification's words; it is to be compared with
`physicsGroundHeight`, which follows the code. -/
def specOrderHeight (rocks : List Rock) (hills : List Hill) (d : Draws) (x z : ℝ) : ℝ :=
  stageMicroBumps d
    (stageSmallRocks d x z
      (stageFeatures rocks hills x z
        (stageCenterShaping d x z
          (stageBaseNoise x z))))

/-! ## The visual heightfield synthesizer

`Terrain.generateTerrainGeometry` displaces each mesh vertex by the
height modelled below.  The base `getHeightFromMap(u, v)` sample comes
from the heightmap texture (an external asset); it is the parameter
`hm`. -/

/-- Contribution of one registered rock to a visual vertex height
(`generateTerrainGeometry`, "Add larger predefined rocks"). -/
def rockContribVis (x z : ℝ) (r : Rock) : ℝ :=
  let distToRock := Real.sqrt ((x - r.x) * (x - r.x) + (z - r.z) * (z - r.z))
  if distToRock < r.size then
    r.height * Real.sqrt (1 - (distToRock / r.size) * (distToRock / r.size))
  else 0

/-- Contribution of one registered hill to a visual vertex height
(`generateTerrainGeometry`, "Add hills"). -/
def hillContribVis (x z : ℝ) (h : Hill) : ℝ :=
  let distToHill := Real.sqrt ((x - h.x) * (x - h.x) + (z - h.z) * (z - h.z))
  if distToHill < h.radius then
    h.height * Real.cos ((distToHill / h.radius) * (Real.pi / 2))
  else 0

/-- One vertex height of the visual terrain, exactly as computed in the
vertex loop of `Terrain.generateTerrainGeometry`; `hm` is the
`getHeightFromMap(u, v)` heightmap sample at this vertex. -/
def terrainGeometryHeight (rocks : List Rock) (hills : List Hill) (hm : ℝ) (d : Draws)
    (x z : ℝ) : ℝ :=
  let distFromCenter := Real.sqrt (x * x + z * z)
  let largeNoise := noise (x / size) (z / size)
  let mediumNoise := noise (x / (size * 0.5)) (z / (size * 0.5))
  let smallNoise := noise (x / (size * 0.2)) (z / (size * 0.2))
  let microNoise := noise (x / (size * 0.05)) (z / (size * 0.05))
  let noiseValue := largeNoise * 0.4 + mediumNoise * 0.3 + smallNoise * 0.2 + microNoise * 0.1
  let h0 := hm + noiseValue * bumpiness
  let h1 := if d.microRoll < smallBumpFrequency then h0 + (d.microVal * 0.01 + 0.005) else h0
  let h2 := if d.rockRoll < rockDensity ∧ distFromCenter > circleRadius + 0.1 then
              h1 + (d.rockVal * 0.02 + 0.01)
            else h1
  let h3 := h2 + (rocks.map (rockContribVis x z)).sum
  let h4 := h3 + (hills.map (hillContribVis x z)).sum
  if distFromCenter < centerHoleRadius then
    -centerHoleDepth *
      (1 - (distFromCenter / centerHoleRadius) * (distFromCenter / centerHoleRadius))
  else if distFromCenter < circleRadius then
    let normalizedDist := distFromCenter / circleRadius
    let edgeNoise := noise (normalizedDist * 10) (normalizedDist * 5) * 0.2
    let bowlDepth := holeDepth * (1 - Real.rpow normalizedDist (2 + edgeNoise))
    let h5 := h4 - bowlDepth
    if distFromCenter > centerHoleRadius * 2 ∧ d.bowlRoll < 0.02 then h5 + d.bowlVal * 0.01
    else h5
  else if distFromCenter < circleRadius + rimWidth then
    let rimPosition := (distFromCenter - circleRadius) / rimWidth
    let rimNoise := noise (x * 5) (z * 5) * 0.3
    let rimProfile := Real.sin (rimPosition * Real.pi) * (1 + rimNoise)
    h4 + rimHeight * rimProfile
  else h4

/-! ## `Terrain.getHeightAt`

The public height query: outside the terrain square it returns `0`
immediately; inside, it raycasts the render mesh (the rendering
collaborator, modelled as the `raycast` parameter) and, when the ray
misses, falls back to an analytic approximation that takes the maximum
of the base bowl/rim shape and each feature profile. -/

/-- The base shape used by the `getHeightAt` fallback path. -/
def fallbackBase (x z : ℝ) : ℝ :=
  let distFromCenter := Real.sqrt (x * x + z * z)
  if distFromCenter < centerHoleRadius then
    -centerHoleDepth *
      (1 - (distFromCenter / centerHoleRadius) * (distFromCenter / centerHoleRadius))
  else if distFromCenter < circleRadius then
    -holeDepth *
      (1 - (distFromCenter / circleRadius) * (distFromCenter / circleRadius))
  else if distFromCenter < circleRadius + rimWidth then
    let rimPosition := (distFromCenter - circleRadius) / rimWidth
    rimHeight * Real.sin (rimPosition * Real.pi)
  else 0

/-- The rock height used in the `getHeightAt` fallback's
`Math.max(height, rockHeight)` step. -/
def queryRockProfile (x z : ℝ) (r : Rock) : ℝ :=
  let distToRock := Real.sqrt ((x - r.x) * (x - r.x) + (z - r.z) * (z - r.z))
  r.height * Real.sqrt (1 - (distToRock / r.size) * (distToRock / r.size))

/-- The hill height used in the `getHeightAt` fallback's
`Math.max(height, hillHeight)` step. -/
def queryHillProfile (x z : ℝ) (h : Hill) : ℝ :=
  let distToHill := Real.sqrt ((x - h.x) * (x - h.x) + (z - h.z) * (z - h.z))
  h.height * Real.cos ((distToHill / h.radius) * (Real.pi / 2))

/-- The `getHeightAt` fallback: base shape, then `height = Math.max(height, …)`
over the rock profiles within range, then over the hill profiles within
range. -/
def getHeightAtFallback (rocks : List Rock) (hills : List Hill) (x z : ℝ) : ℝ :=
  let afterRocks := rocks.foldl (fun h r =>
    if Real.sqrt ((x - r.x) * (x - r.x) + (z - r.z) * (z - r.z)) < r.size then
      max h (queryRockProfile x z r)
    else h) (fallbackBase x z)
  hills.foldl (fun h hl =>
    if Real.sqrt ((x - hl.x) * (x - hl.x) + (z - hl.z) * (z - hl.z)) < hl.radius then
      max h (queryHillProfile x z hl)
    else h) afterRocks

/-- `Terrain.getHeightAt(x, z)`.  `raycast x z = some y` models a mesh
raycast hit at height `y`; `none` models a miss. -/
def getHeightAt (raycast : ℝ → ℝ → Option ℝ) (rocks : List Rock) (hills : List Hill)
    (x z : ℝ) : ℝ :=
  if |x| > size / 2 ∨ |z| > size / 2 then 0
  else
    match raycast x z with
    | some y => y
    | none => getHeightAtFallback rocks hills x z

/-! ## Heightfield/mesh alignment arithmetic (`createPhysicsGround`)

The grid-layout arithmetic of the terrain-physics bridge is exact
rational arithmetic, so it is modelled over `ℚ`, parameterized by the
constructor arguments `size` and `resolution`. -/

/-- `physicsResolution = Math.min(128, Math.floor(this.resolution * detailMultiplier))`
with `detailMultiplier = 1.5`. -/
def physicsResolution (res : ℕ) : ℕ := min 128 (Nat.floor ((res : ℚ) * 1.5))

/-- `elementSize = this.size / (physicsResolution - 1)`. -/
def elementSize (sz : ℚ) (res : ℕ) : ℚ := sz / ((physicsResolution res : ℚ) - 1)

/-- `sizeX = (physicsResolution - 1) * elementSize` (and `sizeZ` is computed
by the identical expression). -/
def heightfieldSizeX (sz : ℚ) (res : ℕ) : ℚ :=
  ((physicsResolution res : ℚ) - 1) * elementSize sz res

/-- The static heightfield body's x position: `this.body.position.set(-sizeX/2, 0, -sizeZ/2)`. -/
def heightfieldOffsetX (sz : ℚ) (res : ℕ) : ℚ := -heightfieldSizeX sz res / 2

/-- The static heightfield body's z position (same expression with `sizeZ = sizeX`). -/
def heightfieldOffsetZ (sz : ℚ) (res : ℕ) : ℚ := -heightfieldSizeX sz res / 2

/-- The world x-coordinate at which the `heights` matrix is sampled for
column `j`: `x = (j / (physicsResolution - 1) - 0.5) * this.size` (and
rows are sampled by the identical expression in `z`). -/
def physicsSampleCoord (sz : ℚ) (res : ℕ) (j : ℕ) : ℚ :=
  ((j : ℚ) / ((physicsResolution res : ℚ) - 1) - 0.5) * sz

/-- World x-coordinate of column `j` of the render mesh's vertex grid.
The rendering collaborator's `PlaneGeometry(size, size, resolution-1,
resolution-1)` is centered on the origin, so the vertex grid spans
`[-size/2, size/2]` with `resolution` vertices per side. -/
def meshVertexCoord (sz : ℚ) (res : ℕ) (j : ℕ) : ℚ :=
  -sz / 2 + (j : ℚ) * (sz / ((res : ℚ) - 1))

/-! ## Obstacle placement (`generateObstaclePositions`)

Rejection sampling with a retry budget of 100 attempts per feature.
Candidate positions are `Math.random() * size - size/2` in each axis;
the random draws are explicit streams. -/

/-- `Math.sqrt(dx*dx + dz*dz)` between a placed feature and a candidate. -/
def distBetween (a b : ℝ × ℝ) : ℝ :=
  Real.sqrt ((a.1 - b.1) * (a.1 - b.1) + (a.2 - b.2) * (a.2 - b.2))

/-- `Math.sqrt(x*x + z*z)` of a candidate. -/
def candDistFromCenter (p : ℝ × ℝ) : ℝ := Real.sqrt (p.1 * p.1 + p.2 * p.2)

/-- `x = Math.random() * this.size - this.size / 2` (and likewise `z`). -/
def candidatePos (sz : ℝ) (rnd : ℝ × ℝ) : ℝ × ℝ :=
  (rnd.1 * sz - sz / 2, rnd.2 * sz - sz / 2)

/-- A rock candidate is accepted when it is not too close (`< 0.5`) to any
previously placed rock and not closer than `circleRadius * 1.2` to the
center. -/
def rockCandidateOk (rocks : List Rock) (p : ℝ × ℝ) : Prop :=
  (∀ r ∈ rocks, ¬ distBetween (r.x, r.z) p < 0.5) ∧
  ¬ candDistFromCenter p < circleRadius * 1.2

/-- A hill candidate is accepted when it is not too close to any rock
(`< 0.6`) or previously placed hill (`< 0.8`) and not closer than
`circleRadius * 1.3` to the center. -/
def hillCandidateOk (rocks : List Rock) (hills : List Hill) (p : ℝ × ℝ) : Prop :=
  (∀ r ∈ rocks, ¬ distBetween (r.x, r.z) p < 0.6) ∧
  (∀ h ∈ hills, ¬ distBetween (h.x, h.z) p < 0.8) ∧
  ¬ candDistFromCenter p < circleRadius * 1.3

open Classical in
/-- The retry loop shared by rock and hill placement.  The attempt counter
starts at 1; a valid candidate is accepted immediately; an invalid one is
retried unless `attempt > 100`, in which case the loop gives up and
accepts the last candidate, logging a warning (the `Bool` component).
The fuel argument is 101 at the top-level call, so the fuel-exhausted
case is never reached from it. -/
def placeLoop (valid : ℝ × ℝ → Prop) (cand : ℕ → ℝ × ℝ) : ℕ → ℕ → (ℝ × ℝ) × Bool
  | attempt, 0 => (cand attempt, true)
  | attempt, fuel + 1 =>
    let c := cand attempt
    if valid c then (c, false)
    else if attempt > 100 then (c, true)
    else placeLoop valid cand (attempt + 1) fuel

/-- The first `for` loop of `generateObstaclePositions`: place `n` rocks
in order.  `cand i k` is the random pair drawn at attempt `k` for rock
`i`; `szDraw i` and `htDraw i` are the size/height draws
(`Math.random() * 0.06 + 0.04` and `Math.random() * 0.05 + 0.05`).
Returns the rock list and whether any placement exhausted its budget. -/
def placeRocks (sz : ℝ) (cand : ℕ → ℕ → ℝ × ℝ) (szDraw htDraw : ℕ → ℝ) :
    ℕ → List Rock × Bool
  | 0 => ([], false)
  | n + 1 =>
    let prev := placeRocks sz cand szDraw htDraw n
    let r := placeLoop (rockCandidateOk prev.1) (fun k => candidatePos sz (cand n k)) 1 101
    (prev.1 ++ [⟨r.1.1, r.1.2, szDraw n * 0.06 + 0.04, htDraw n * 0.05 + 0.05⟩],
     prev.2 || r.2)

/-- The second `for` loop of `generateObstaclePositions`: place `n` hills
in order, checked against all rocks and the previously placed hills.
Radius draw `Math.random() * 0.25 + 0.2`, height draw
`Math.random() * 0.08 + 0.05`. -/
def placeHills (sz : ℝ) (rocks : List Rock) (cand : ℕ → ℕ → ℝ × ℝ)
    (radDraw htDraw : ℕ → ℝ) : ℕ → List Hill × Bool
  | 0 => ([], false)
  | n + 1 =>
    let prev := placeHills sz rocks cand radDraw htDraw n
    let h := placeLoop (hillCandidateOk rocks prev.1) (fun k => candidatePos sz (cand n k)) 1 101
    (prev.1 ++ [⟨h.1.1, h.1.2, radDraw n * 0.25 + 0.2, htDraw n * 0.08 + 0.05⟩],
     prev.2 || h.2)

/-- `Terrain.generateObstaclePositions`: place `largeRockCount` rocks,
then `hillCount` hills.  Returns both lists and whether any placement
fell back to its last candidate after 100 failed attempts. -/
def generateObstaclePositions (sz : ℝ) (rockCand hillCand : ℕ → ℕ → ℝ × ℝ)
    (rockSz rockHt hillRad hillHt : ℕ → ℝ) : (List Rock × List Hill) × Bool :=
  let rocks := placeRocks sz rockCand rockSz rockHt largeRockCount
  let hills := placeHills sz rocks.1 hillCand hillRad hillHt hillCount
  ((rocks.1, hills.1), rocks.2 || hills.2)

/-! ## The dynamics post-processor (`Player.update`, src/js/game.js)

The continuous terrain-interaction block of `Player.update`: uphill
resistance sampled along the direction of travel, a per-step
micro-resistance, and the settling-roll injection from a four-point
height gradient.  `h` is the terrain height query
(`this.terrain.getHeightAt`); `(px, py, pz)` is the marble body's
position and `v` its linear velocity. -/

/-- Marble linear velocity. -/
structure Vel where
  x : ℝ
  y : ℝ
  z : ℝ

/-- The slope-dependent uphill damping factor:
`slopeSteepness = Math.min(0.03, heightDiff) / 0.03` and
`uphillResistance = 1.0 - slopeSteepness * slopeSteepness * 0.07`. -/
def uphillFactor (heightDiff : ℝ) : ℝ :=
  let slopeSteepness := min 0.03 heightDiff / 0.03
  1.0 - slopeSteepness * slopeSteepness * 0.07

/-- The terrain-interaction block of `Player.update` (executed when the
marble is near the terrain), returning the marble's updated velocity. -/
def playerTerrainStep (h : ℝ → ℝ → ℝ) (px py pz : ℝ) (v : Vel) : Vel :=
  if py < 0.5 then
    let terrainHeight := h px pz
    let sampleDistance : ℝ := 0.03
    let horizSpeed := Real.sqrt (v.x * v.x + v.z * v.z)
    let v1 :=
      if horizSpeed > 0.01 then
        let dirX := v.x / horizSpeed
        let dirZ := v.z / horizSpeed
        let forwardHeight := h (px + dirX * sampleDistance) (pz + dirZ * sampleDistance)
        let heightDiff := forwardHeight - terrainHeight
        let v2 :=
          if heightDiff > 0.001 then
            let uphillResistance := uphillFactor heightDiff
            let vy :=
              if v.y < 0.1 ∧ horizSpeed > 0.5 then v.y + min 0.05 (heightDiff * 5) else v.y
            Vel.mk (v.x * uphillResistance) vy (v.z * uphillResistance)
          else v
        Vel.mk (v2.x * 0.998) v2.y (v2.z * 0.998)
      else v
    let speed := Real.sqrt (v1.x * v1.x + v1.y * v1.y + v1.z * v1.z)
    if speed < 0.5 ∧ py < 0.1 then
      let leftHeight := h (px - sampleDistance) pz
      let rightHeight := h (px + sampleDistance) pz
      let frontHeight := h px (pz + sampleDistance)
      let backHeight := h px (pz - sampleDistance)
      let xGradient := (rightHeight - leftHeight) / (2 * sampleDistance)
      let zGradient := (frontHeight - backHeight) / (2 * sampleDistance)
      if |xGradient| > 0.05 ∨ |zGradient| > 0.05 then
        Vel.mk (v1.x + -xGradient * 0.02) v1.y (v1.z + -zGradient * 0.02)
      else v1
    else v1
  else v

/-! ## Ground collision bodies and failure handling (`createPhysicsGround`)

`createPhysicsGround` wraps its whole body in `try { ... } catch`, adds a
flat backup ground plane at `y = -0.05` before attempting the heightfield,
and only then constructs the `CANNON.Heightfield` shape, the terrain body
and the per-feature sphere bodies.  The model records the static bodies
added to the physics world; `hfThrows` models the shape construction
throwing (e.g. on a malformed height matrix), in which case control jumps
to the `catch`, which logs the error (the `Bool` component) and returns
normally. -/

inductive ShapeKind where
  | plane : ShapeKind
  | heightfield : ShapeKind
  | sphere : ShapeKind
deriving DecidableEq

/-- A static collision body added to the physics world. -/
structure PhysBody where
  kind : ShapeKind
  posX : ℝ
  posY : ℝ
  posZ : ℝ

/-- The backup ground plane: `position: new CANNON.Vec3(0, -0.05, 0)`. -/
def backupGroundBody : PhysBody := ⟨ShapeKind.plane, 0, -0.05, 0⟩

/-- The static heightfield terrain body, positioned at `(-sizeX/2, 0, -sizeZ/2)`. -/
def heightfieldBody : PhysBody :=
  ⟨ShapeKind.heightfield, (heightfieldOffsetX 5 resolution : ℚ), 0,
    (heightfieldOffsetZ 5 resolution : ℚ)⟩

/-- `addRockBodies`: one static sphere per rock with `size ≥ 0.05`
(smaller rocks are skipped), at `(rock.x, rock.height / 2, rock.z)`. -/
def rockBodies (rocks : List Rock) : List PhysBody :=
  (rocks.filter fun r => ¬ r.size < 0.05).map fun r =>
    ⟨ShapeKind.sphere, r.x, r.height / 2, r.z⟩

/-- `addTerrainFeatures`: one static sphere per hill, at
`(hill.x, hill.height * 0.5, hill.z)`. -/
def hillBodies (hills : List Hill) : List PhysBody :=
  hills.map fun h => ⟨ShapeKind.sphere, h.x, h.height * 0.5, h.z⟩

/-- The ground collision bodies added by one run of `createPhysicsGround`,
together with whether the `catch` handler ran. -/
def createPhysicsGroundBodies (rocks : List Rock) (hills : List Hill) (hfThrows : Bool) :
    List PhysBody × Bool :=
  let afterPlane := [backupGroundBody]
  if hfThrows then (afterPlane, true)
  else (afterPlane ++ [heightfieldBody] ++ rockBodies rocks ++ hillBodies hills, false)

end

/-! ## Helper lemmas -/

noncomputable section

/-- The sine-product pseudo-noise is bounded by the sum of its octave
amplitudes. -/
lemma sin_prod_abs_le (a b c : ℝ) (hc : 0 ≤ c) : |Real.sin a * Real.sin b * c| ≤ c := by
  have ha : |Real.sin a| ≤ 1 := abs_le.mpr ⟨Real.neg_one_le_sin a, Real.sin_le_one a⟩
  have hb : |Real.sin b| ≤ 1 := abs_le.mpr ⟨Real.neg_one_le_sin b, Real.sin_le_one b⟩
  rw [abs_mul, abs_mul, abs_of_nonneg hc]
  have hab : |Real.sin a| * |Real.sin b| ≤ 1 := by
    nlinarith [abs_nonneg (Real.sin a), abs_nonneg (Real.sin b)]
  calc |Real.sin a| * |Real.sin b| * c ≤ 1 * c :=
        mul_le_mul_of_nonneg_right hab hc
    _ = c := one_mul c

lemma noise_abs_le (nx ny : ℝ) : |noise nx ny| ≤ 0.875 := by
  have h1 := sin_prod_abs_le (nx * 10) (ny * 10) 0.5 (by norm_num)
  have h2 := sin_prod_abs_le (nx * 20 + 0.3) (ny * 20 + 0.1) 0.25 (by norm_num)
  have h3 := sin_prod_abs_le (nx * 40 + 0.5) (ny * 40 + 0.7) 0.125 (by norm_num)
  have := abs_add_three (Real.sin (nx * 10) * Real.sin (ny * 10) * 0.5)
    (Real.sin (nx * 20 + 0.3) * Real.sin (ny * 20 + 0.1) * 0.25)
    (Real.sin (nx * 40 + 0.5) * Real.sin (ny * 40 + 0.7) * 0.125)
  rw [noise]
  linarith

/-- Evaluate `Math.sqrt(a*a)` for a nonnegative `a`. -/
lemma sqrt_self_sq (a : ℝ) (ha : 0 ≤ a) : Real.sqrt (a * a + 0 * 0) = a := by
  rw [show a * a + 0 * 0 = a * a by ring, Real.sqrt_mul_self ha]

lemma le_distBetween (a b : ℝ × ℝ) (c : ℝ) (hc : 0 ≤ c)
    (h : c * c ≤ (a.1 - b.1) * (a.1 - b.1) + (a.2 - b.2) * (a.2 - b.2)) :
    c ≤ distBetween a b := by
  have h' := Real.sqrt_le_sqrt h
  rwa [Real.sqrt_mul_self hc] at h'

lemma le_candDistFromCenter (p : ℝ × ℝ) (c : ℝ) (hc : 0 ≤ c)
    (h : c * c ≤ p.1 * p.1 + p.2 * p.2) : c ≤ candDistFromCenter p := by
  have h' := Real.sqrt_le_sqrt h
  rwa [Real.sqrt_mul_self hc] at h'

/-- A placement whose retry loop did not warn accepted a candidate that
passed its validity check. -/
lemma placeLoop_valid_of_not_warned (valid : ℝ × ℝ → Prop) (cand : ℕ → ℝ × ℝ) :
    ∀ (fuel attempt : ℕ), (placeLoop valid cand attempt fuel).2 = false →
      valid (placeLoop valid cand attempt fuel).1 := by
  intro fuel
  induction fuel with
  | zero =>
    intro a h
    simp [placeLoop] at h
  | succ n ih =>
    intro a h
    by_cases hv : valid (cand a)
    · simp only [placeLoop, if_pos hv]
      exact hv
    · by_cases ha : a > 100
      · simp [placeLoop, hv, ha] at h
      · simp only [placeLoop, if_neg hv, if_neg ha] at h ⊢
        exact ih (a + 1) h

/-- When every candidate up to attempt 101 is invalid, the retry loop
terminates anyway: it accepts the last candidate (attempt 101) and warns. -/
lemma placeLoop_exhausts (valid : ℝ × ℝ → Prop) (cand : ℕ → ℝ × ℝ) :
    ∀ (fuel attempt : ℕ), attempt + fuel = 102 → 1 ≤ attempt → attempt ≤ 101 →
      (∀ k, 1 ≤ k → k ≤ 101 → ¬ valid (cand k)) →
      placeLoop valid cand attempt fuel = (cand 101, true) := by
  intro fuel
  induction fuel with
  | zero =>
    intro a hsum _ hle _
    exfalso
    omega
  | succ n ih =>
    intro a hsum h1 hle hall
    have hnv : ¬ valid (cand a) := hall a h1 hle
    by_cases ha : a > 100
    · have h101 : a = 101 := by omega
      subst h101
      simp [placeLoop, hnv, ha]
    · simp only [placeLoop, if_neg hnv, if_neg ha]
      exact ih (a + 1) (by omega) (by omega) (by omega) hall

/-- If the first candidate is already valid, the retry loop accepts it
without warning. -/
lemma placeLoop_first_valid (valid : ℝ × ℝ → Prop) (cand : ℕ → ℝ × ℝ)
    (h : valid (cand 1)) : placeLoop valid cand 1 101 = (cand 1, false) := by
  rw [show (101 : ℕ) = 100 + 1 by norm_num, placeLoop]
  simp only [if_pos h]

/-- Unfolding equation for one rock-placement step. -/
lemma placeRocks_succ (sz : ℝ) (cand : ℕ → ℕ → ℝ × ℝ) (szDraw htDraw : ℕ → ℝ) (n : ℕ) :
    placeRocks sz cand szDraw htDraw (n + 1) =
      ((placeRocks sz cand szDraw htDraw n).1 ++
        [⟨(placeLoop (rockCandidateOk (placeRocks sz cand szDraw htDraw n).1)
              (fun k => candidatePos sz (cand n k)) 1 101).1.1,
          (placeLoop (rockCandidateOk (placeRocks sz cand szDraw htDraw n).1)
              (fun k => candidatePos sz (cand n k)) 1 101).1.2,
          szDraw n * 0.06 + 0.04, htDraw n * 0.05 + 0.05⟩],
        (placeRocks sz cand szDraw htDraw n).2 ||
          (placeLoop (rockCandidateOk (placeRocks sz cand szDraw htDraw n).1)
              (fun k => candidatePos sz (cand n k)) 1 101).2) := rfl

/-- Unfolding equation for one hill-placement step. -/
lemma placeHills_succ (sz : ℝ) (rocks : List Rock) (cand : ℕ → ℕ → ℝ × ℝ)
    (radDraw htDraw : ℕ → ℝ) (n : ℕ) :
    placeHills sz rocks cand radDraw htDraw (n + 1) =
      ((placeHills sz rocks cand radDraw htDraw n).1 ++
        [⟨(placeLoop (hillCandidateOk rocks (placeHills sz rocks cand radDraw htDraw n).1)
              (fun k => candidatePos sz (cand n k)) 1 101).1.1,
          (placeLoop (hillCandidateOk rocks (placeHills sz rocks cand radDraw htDraw n).1)
              (fun k => candidatePos sz (cand n k)) 1 101).1.2,
          radDraw n * 0.25 + 0.2, htDraw n * 0.08 + 0.05⟩],
        (placeHills sz rocks cand radDraw htDraw n).2 ||
          (placeLoop (hillCandidateOk rocks (placeHills sz rocks cand radDraw htDraw n).1)
              (fun k => candidatePos sz (cand n k)) 1 101).2) := rfl

/-- Rocks placed without any warning satisfy all rock clearance
constraints. -/
lemma placeRocks_sound (sz : ℝ) (cand : ℕ → ℕ → ℝ × ℝ) (szDraw htDraw : ℕ → ℝ) :
    ∀ n, (placeRocks sz cand szDraw htDraw n).2 = false →
      List.Pairwise (fun a b : Rock => 0.5 ≤ distBetween (a.x, a.z) (b.x, b.z))
        (placeRocks sz cand szDraw htDraw n).1 ∧
      ∀ r ∈ (placeRocks sz cand szDraw htDraw n).1,
        circleRadius * 1.2 ≤ candDistFromCenter (r.x, r.z) := by
  intro n
  induction n with
  | zero =>
    intro _
    exact ⟨List.Pairwise.nil, fun r hr => absurd hr (List.not_mem_nil r)⟩
  | succ m ih =>
    intro hw
    rw [placeRocks_succ] at hw ⊢
    rw [Bool.or_eq_false_iff] at hw
    obtain ⟨hw1, hw2⟩ := hw
    obtain ⟨ihp, ihc⟩ := ih hw1
    have hok := placeLoop_valid_of_not_warned
      (rockCandidateOk (placeRocks sz cand szDraw htDraw m).1)
      (fun k => candidatePos sz (cand m k)) 101 1 hw2
    constructor
    · rw [List.pairwise_append]
      refine ⟨ihp, List.pairwise_singleton _ _, ?_⟩
      intro a ha b hb
      rw [List.mem_singleton] at hb
      subst hb
      simpa using not_lt.mp (hok.1 a ha)
    · intro r hr
      rw [List.mem_append] at hr
      rcases hr with hr | hr
      · exact ihc r hr
      · rw [List.mem_singleton] at hr
        subst hr
        simpa using not_lt.mp hok.2

/-- Hills placed without any warning satisfy all hill clearance
constraints. -/
lemma placeHills_sound (sz : ℝ) (rocks : List Rock) (cand : ℕ → ℕ → ℝ × ℝ)
    (radDraw htDraw : ℕ → ℝ) :
    ∀ n, (placeHills sz rocks cand radDraw htDraw n).2 = false →
      List.Pairwise (fun a b : Hill => 0.8 ≤ distBetween (a.x, a.z) (b.x, b.z))
        (placeHills sz rocks cand radDraw htDraw n).1 ∧
      ∀ h ∈ (placeHills sz rocks cand radDraw htDraw n).1,
        (∀ r ∈ rocks, 0.6 ≤ distBetween (r.x, r.z) (h.x, h.z)) ∧
        circleRadius * 1.3 ≤ candDistFromCenter (h.x, h.z) := by
  intro n
  induction n with
  | zero =>
    intro _
    exact ⟨List.Pairwise.nil, fun h hh => absurd hh (List.not_mem_nil h)⟩
  | succ m ih =>
    intro hw
    rw [placeHills_succ] at hw ⊢
    rw [Bool.or_eq_false_iff] at hw
    obtain ⟨hw1, hw2⟩ := hw
    obtain ⟨ihp, ihc⟩ := ih hw1
    have hok := placeLoop_valid_of_not_warned
      (hillCandidateOk rocks (placeHills sz rocks cand radDraw htDraw m).1)
      (fun k => candidatePos sz (cand m k)) 101 1 hw2
    constructor
    · rw [List.pairwise_append]
      refine ⟨ihp, List.pairwise_singleton _ _, ?_⟩
      intro a ha b hb
      rw [List.mem_singleton] at hb
      subst hb
      simpa using not_lt.mp (hok.2.1 a ha)
    · intro h hh
      rw [List.mem_append] at hh
      rcases hh with hh | hh
      · exact ihc h hh
      · rw [List.mem_singleton] at hh
        subst hh
        refine ⟨fun r hr => by simpa using not_lt.mp (hok.1 r hr), ?_⟩
        simpa using not_lt.mp hok.2.2

/-- A `Math.max` accumulation never goes below its initial value. -/
lemma le_foldl_condMax {α : Type} (c : α → Prop) [DecidablePred c] (p : α → ℝ) :
    ∀ (l : List α) (a : ℝ), a ≤ l.foldl (fun h r => if c r then max h (p r) else h) a := by
  intro l
  induction l with
  | nil => intro a; exact le_refl a
  | cons s t ih =>
    intro a
    rw [List.foldl_cons]
    refine le_trans ?_ (ih _)
    by_cases hc : c s
    · rw [if_pos hc]; exact le_max_left _ _
    · rw [if_neg hc]

/-- A `Math.max` accumulation dominates every in-range element's profile. -/
lemma foldl_condMax_ge_elem {α : Type} (c : α → Prop) [DecidablePred c] (p : α → ℝ) :
    ∀ (l : List α) (a : ℝ) (r : α), r ∈ l → c r →
      p r ≤ l.foldl (fun h r => if c r then max h (p r) else h) a := by
  intro l
  induction l with
  | nil => intro a r hr; cases hr
  | cons s t ih =>
    intro a r hr hc
    rw [List.foldl_cons]
    rcases List.mem_cons.mp hr with h | h
    · subst h
      refine le_trans ?_ (le_foldl_condMax c p t _)
      rw [if_pos hc]
      exact le_max_right _ _
    · exact ih _ r h hc

end

/-! ## Claim theorems -/

noncomputable section

/-- C5: sampling either heightfield synthesizer at the exact center
(distance 0 from the origin) returns exactly `-centerHoleDepth`: the
center-hole branch overrides all noise, rim, micro-bump and feature
contributions, for every random draw, heightmap sample and feature
list. -/
theorem center_sample_exact (rocks : List Rock) (hills : List Hill) (hm : ℝ) (d : Draws) :
    physicsGroundHeight rocks hills d 0 0 = -centerHoleDepth ∧
    terrainGeometryHeight rocks hills hm d 0 0 = -centerHoleDepth := by
  have h0 : Real.sqrt ((0 : ℝ) * 0 + 0 * 0) = 0 := by
    rw [show (0 : ℝ) * 0 + 0 * 0 = 0 by ring, Real.sqrt_zero]
  constructor <;>
    simp only [physicsGroundHeight, terrainGeometryHeight, h0] <;>
    rw [if_pos (by norm_num [centerHoleRadius])] <;>
    norm_num

/-- C10: for query positions outside the playable terrain square,
`getHeightAt` returns exactly `0`, for every raycast behavior and every
feature list (so the mesh is not raycast and no feature or bowl/rim
profile is consulted). -/
theorem getHeightAt_outside_zero (raycast : ℝ → ℝ → Option ℝ) (rocks : List Rock)
    (hills : List Hill) (x z : ℝ) (hout : |x| > size / 2 ∨ |z| > size / 2) :
    getHeightAt raycast rocks hills x z = 0 := by
  simp only [getHeightAt, if_pos hout]

theorem getHeightAt_outside_zero_witness :
    ((|(2.51 : ℝ)| > size / 2 ∨ |(0 : ℝ)| > size / 2) ∧
      getHeightAt (fun a b => some (a + b)) [⟨2.45, 0, 0.1, 0.08⟩] [] 2.51 0 = 0) :=
  ⟨Or.inl (by rw [abs_of_nonneg (by norm_num : (0 : ℝ) ≤ 2.51)]; norm_num [size]),
    getHeightAt_outside_zero (fun a b => some (a + b)) [⟨2.45, 0, 0.1, 0.08⟩] [] 2.51 0
      (Or.inl (by rw [abs_of_nonneg (by norm_num : (0 : ℝ) ≤ 2.51)]; norm_num [size]))⟩

/-- C9: if the heightfield shape construction throws inside
`createPhysicsGround`, the exception is caught (the handler logs and the
function returns normally), and the physics world is left with the flat
backup ground plane at `y = -0.05` as the only ground collision body. -/
theorem createPhysicsGround_fallback (rocks : List Rock) (hills : List Hill) :
    createPhysicsGroundBodies rocks hills true = ([backupGroundBody], true) ∧
    backupGroundBody.kind = ShapeKind.plane ∧ backupGroundBody.posY = -0.05 :=
  ⟨by simp [createPhysicsGroundBodies], rfl, rfl⟩

/-- C1: the static heightfield body's position offset equals
`-((physicsResolution − 1) · elementSize)/2` on both axes, which is
exactly `-size/2`, so grid cell `(0,0)` of the collision shape sits at
the same world coordinate as both the height sample for matrix entry
`(0,0)` and the render mesh's `(0,0)` vertex. -/
theorem heightfield_offset_centered (sz : ℚ) (res : ℕ) (hres : 2 ≤ res) :
    heightfieldOffsetX sz res =
      -(((physicsResolution res : ℚ) - 1) * elementSize sz res) / 2 ∧
    heightfieldOffsetZ sz res =
      -(((physicsResolution res : ℚ) - 1) * elementSize sz res) / 2 ∧
    heightfieldOffsetX sz res = -sz / 2 ∧
    heightfieldOffsetX sz res + 0 * elementSize sz res = physicsSampleCoord sz res 0 ∧
    physicsSampleCoord sz res 0 = meshVertexCoord sz res 0 := by
  have hpr : 2 ≤ physicsResolution res := by
    refine le_min (by norm_num) (le_trans hres (Nat.le_floor ?_))
    have hc : (0 : ℚ) ≤ (res : ℚ) := Nat.cast_nonneg res
    linarith
  have hne : ((physicsResolution res : ℚ) - 1) ≠ 0 := by
    have h2 : (2 : ℚ) ≤ (physicsResolution res : ℚ) := by exact_mod_cast hpr
    intro h
    rw [sub_eq_zero] at h
    rw [h] at h2
    norm_num at h2
  have hoff : heightfieldOffsetX sz res = -sz / 2 := by
    rw [heightfieldOffsetX, heightfieldSizeX, elementSize, mul_div_cancel₀ _ hne]
  refine ⟨rfl, rfl, hoff, ?_, ?_⟩
  · rw [hoff, physicsSampleCoord]
    push_cast
    rw [zero_div]
    ring
  · rw [physicsSampleCoord, meshVertexCoord]
    push_cast
    rw [zero_div]
    ring

theorem heightfield_offset_centered_witness :
    (2 ≤ 64 ∧ physicsResolution 64 = 96 ∧ elementSize 5 64 = 5 / 95 ∧
      heightfieldOffsetX 5 64 = -(5 : ℚ) / 2) ∧
    (heightfieldOffsetX 5 64 =
        -(((physicsResolution 64 : ℚ) - 1) * elementSize 5 64) / 2 ∧
      heightfieldOffsetZ 5 64 =
        -(((physicsResolution 64 : ℚ) - 1) * elementSize 5 64) / 2 ∧
      heightfieldOffsetX 5 64 = -(5 : ℚ) / 2 ∧
      heightfieldOffsetX 5 64 + 0 * elementSize 5 64 = physicsSampleCoord 5 64 0 ∧
      physicsSampleCoord 5 64 0 = meshVertexCoord 5 64 0) :=
  ⟨⟨by norm_num, by norm_num [physicsResolution],
      by norm_num [elementSize, physicsResolution],
      by norm_num [heightfieldOffsetX, heightfieldSizeX, elementSize, physicsResolution]⟩,
    heightfield_offset_centered 5 64 (by norm_num)⟩

/-- C2 (amended): the physics heightfield synthesizer evaluates its
stages in the fixed order (1) base multi-octave sine pseudo-noise,
(2) sparse micro-bumps, (3) sparse random small rocks, (4) feature
stamping for rocks and hills, and last (5) distance-from-center shaping,
each later stage overriding or adding onto the earlier ones (the shaping
stage overrides everything inside the center hole and adds/subtracts
elsewhere). -/
theorem synthesizer_stage_order (rocks : List Rock) (hills : List Hill) (d : Draws)
    (x z : ℝ) :
    physicsGroundHeight rocks hills d x z =
      stageCenterShaping d x z
        (stageFeatures rocks hills x z
          (stageSmallRocks d x z
            (stageMicroBumps d
              (stageBaseNoise x z)))) := rfl

/-- C2 counterexample: the evaluation order asserted by the claim
(noise, then distance-from-center shaping, then feature stamping, then
sparse micro-bumps) computes a different heightfield than the code: at a
point inside the center hole whose micro-bump draw fires, the code's
shaping stage (which runs last) discards the micro-bump, while the
claimed order adds the micro-bump after the shaping. -/
theorem synthesizer_stage_order_counterexample :
    physicsGroundHeight [] [] ⟨0, 0, 1, 0, 1, 0⟩ 0.1 0 ≠
      specOrderHeight [] [] ⟨0, 0, 1, 0, 1, 0⟩ 0.1 0 := by
  have hd : Real.sqrt ((0.1 : ℝ) * 0.1 + 0 * 0) = 0.1 := sqrt_self_sq 0.1 (by norm_num)
  have h01 : (0.1 : ℝ) < centerHoleRadius := by norm_num [centerHoleRadius]
  have hc : ¬ ((1 : ℝ) < rockDensity * 1.5 ∧ (0.1 : ℝ) > circleRadius + 0.1) := by
    rw [not_and]
    intro h
    norm_num [rockDensity] at h
  have hm : (0 : ℝ) < 0.5 := by norm_num
  have hL : physicsGroundHeight [] [] ⟨0, 0, 1, 0, 1, 0⟩ 0.1 0 =
      -centerHoleDepth * (1 - 0.1 / centerHoleRadius * (0.1 / centerHoleRadius)) := by
    simp only [physicsGroundHeight, hd]
    rw [if_pos h01]
  have hR : specOrderHeight [] [] ⟨0, 0, 1, 0, 1, 0⟩ 0.1 0 =
      -centerHoleDepth * (1 - 0.1 / centerHoleRadius * (0.1 / centerHoleRadius))
        + (0 * 0.015 + 0.005) := by
    simp only [specOrderHeight, stageCenterShaping, stageFeatures, stageSmallRocks,
      stageMicroBumps, hd, List.map_nil, List.sum_nil, add_zero]
    rw [if_pos h01, if_neg hc, if_pos hm]
  rw [hL, hR, centerHoleDepth, centerHoleRadius]
  norm_num

/-- C4 counterexample: at the physics grid coordinate `(11/38, -1/38)`
(matrix entry `i = 47, j = 53` of the 96×96 physics grid, distance
≈ 0.29 < `centerHoleRadius` from the origin), the synthesized elevation
exceeds the synthesized elevation at the hole boundary (distance exactly
`centerHoleRadius`), because the inner parabola approaches 0 at the
boundary while the bowl branch sits around `-holeDepth` below the base
height.  Draws chosen so no random bump fires at either point; no
registered features reach either point (empty lists). -/
theorem bowl_boundary_counterexample :
    physicsGroundHeight [] [] ⟨1, 0, 1, 0, 1, 0⟩ 0.3 0 <
      physicsGroundHeight [] [] ⟨1, 0, 1, 0, 1, 0⟩ (11 / 38) (-1 / 38) := by
  have hq : ((11 / 38 : ℝ) * (11 / 38) + (-1 / 38) * (-1 / 38)) = 122 / 1444 := by norm_num
  have hd3 : Real.sqrt ((0.3 : ℝ) * 0.3 + 0 * 0) = 0.3 := sqrt_self_sq 0.3 (by norm_num)
  have hin : Real.sqrt ((11 / 38 : ℝ) * (11 / 38) + (-1 / 38) * (-1 / 38))
      < centerHoleRadius := by
    rw [hq, centerHoleRadius,
      show (0.3 : ℝ) = Real.sqrt (0.3 * 0.3) from (Real.sqrt_mul_self (by norm_num)).symm]
    exact Real.sqrt_lt_sqrt (by norm_num) (by norm_num)
  have hss : Real.sqrt ((11 / 38 : ℝ) * (11 / 38) + (-1 / 38) * (-1 / 38)) *
      Real.sqrt ((11 / 38 : ℝ) * (11 / 38) + (-1 / 38) * (-1 / 38)) = 122 / 1444 := by
    rw [Real.mul_self_sqrt (by norm_num), hq]
  have hR : physicsGroundHeight [] [] ⟨1, 0, 1, 0, 1, 0⟩ (11 / 38) (-1 / 38) =
      -centerHoleDepth * (1 - 122 / 1444 / (centerHoleRadius * centerHoleRadius)) := by
    simp only [physicsGroundHeight]
    rw [if_pos hin, div_mul_div_comm, hss]
  have hnm : ¬ ((1 : ℝ) < 0.5) := by norm_num
  have hnr : ¬ ((1 : ℝ) < rockDensity * 1.5 ∧ (0.3 : ℝ) > circleRadius + 0.1) := by
    rw [not_and]
    intro h
    norm_num [rockDensity] at h
  have hnb : ¬ ((0.3 : ℝ) > centerHoleRadius * 2 ∧ (1 : ℝ) < 0.05) := by
    rw [not_and]
    intro _ h2
    norm_num at h2
  have hL : physicsGroundHeight [] [] ⟨1, 0, 1, 0, 1, 0⟩ 0.3 0 =
      (0 + (noise (0.3 / size) (0 / size) * 0.3 +
          noise (0.3 / (size * 0.25)) (0 / (size * 0.25)) * 0.3 +
          noise (0.3 / (size * 0.1)) (0 / (size * 0.1)) * 0.2 +
          noise (0.3 / (size * 0.02)) (0 / (size * 0.02)) * 0.2) * bumpiness *
            min 1.0 (0.3 / (circleRadius + rimWidth)))
        - holeDepth * (1 - Real.rpow (0.3 / circleRadius)
            (2 + noise (0.3 / circleRadius * 10) (0.3 / circleRadius * 5) * 0.2)) := by
    simp only [physicsGroundHeight, hd3, List.map_nil, List.sum_nil, add_zero]
    rw [if_neg (show ¬ ((0.3 : ℝ) < centerHoleRadius) by norm_num [centerHoleRadius]),
      if_pos (show (0.3 : ℝ) < circleRadius by norm_num [circleRadius]),
      if_neg hnb, if_neg hnm, if_neg hnr]
  have hb1 := abs_le.mp (noise_abs_le (0.3 / size) (0 / size))
  have hb2 := abs_le.mp (noise_abs_le (0.3 / (size * 0.25)) (0 / (size * 0.25)))
  have hb3 := abs_le.mp (noise_abs_le (0.3 / (size * 0.1)) (0 / (size * 0.1)))
  have hb4 := abs_le.mp (noise_abs_le (0.3 / (size * 0.02)) (0 / (size * 0.02)))
  have hbe := abs_le.mp (noise_abs_le (0.3 / circleRadius * 10) (0.3 / circleRadius * 5))
  have hrp0 : (0 : ℝ) ≤ Real.rpow (0.3 / circleRadius)
      (2 + noise (0.3 / circleRadius * 10) (0.3 / circleRadius * 5) * 0.2) :=
    Real.rpow_nonneg (by norm_num [circleRadius]) _
  have hrp1 : Real.rpow (0.3 / circleRadius)
      (2 + noise (0.3 / circleRadius * 10) (0.3 / circleRadius * 5) * 0.2) ≤ 0.12 := by
    have hexp : (1 : ℝ) ≤ 2 + noise (0.3 / circleRadius * 10) (0.3 / circleRadius * 5) * 0.2 := by
      nlinarith [hbe.1]
    calc Real.rpow (0.3 / circleRadius)
          (2 + noise (0.3 / circleRadius * 10) (0.3 / circleRadius * 5) * 0.2)
        ≤ Real.rpow (0.3 / circleRadius) 1 :=
          Real.rpow_le_rpow_of_exponent_ge (by norm_num [circleRadius])
            (by norm_num [circleRadius]) hexp
      _ = 0.3 / circleRadius := Real.rpow_one _
      _ = 0.12 := by norm_num [circleRadius]
  have hmin : min (1.0 : ℝ) (0.3 / (circleRadius + rimWidth)) = 0.1 := by
    rw [min_eq_right (by norm_num [circleRadius, rimWidth])]
    norm_num [circleRadius, rimWidth]
  rw [hL, hR, hmin, bumpiness, holeDepth, centerHoleDepth, centerHoleRadius]
  nlinarith [hb1.1, hb1.2, hb2.1, hb2.2, hb3.1, hb3.2, hb4.1, hb4.2, hrp0, hrp1]

/-- C4 (amended): inside the center hole the synthesized elevation follows
the inverted parabola exactly: it is monotonically non-decreasing in the
distance from the center and bounded above by 0 (the parabola's limit
value at the hole boundary).  The claim's comparison point — the
bowl-branch elevation at distance exactly `centerHoleRadius` — can lie
strictly below nearby inside elevations (see the counterexample), so the
bound holds with respect to the inner profile's boundary value 0 rather
than the sampled boundary elevation. -/
theorem center_hole_parabola_monotone (rocks : List Rock) (hills : List Hill) (d : Draws)
    (x z x' z' : ℝ)
    (hle : Real.sqrt (x * x + z * z) ≤ Real.sqrt (x' * x' + z' * z'))
    (hin : Real.sqrt (x' * x' + z' * z') < centerHoleRadius) :
    physicsGroundHeight rocks hills d x z ≤ physicsGroundHeight rocks hills d x' z' ∧
    physicsGroundHeight rocks hills d x z ≤ 0 := by
  have h1nn : 0 ≤ Real.sqrt (x * x + z * z) := Real.sqrt_nonneg _
  have hin1 : Real.sqrt (x * x + z * z) < centerHoleRadius := lt_of_le_of_lt hle hin
  have hv1 : physicsGroundHeight rocks hills d x z =
      -centerHoleDepth * (1 - Real.sqrt (x * x + z * z) / centerHoleRadius *
        (Real.sqrt (x * x + z * z) / centerHoleRadius)) := by
    simp only [physicsGroundHeight]
    rw [if_pos hin1]
  have hv2 : physicsGroundHeight rocks hills d x' z' =
      -centerHoleDepth * (1 - Real.sqrt (x' * x' + z' * z') / centerHoleRadius *
        (Real.sqrt (x' * x' + z' * z') / centerHoleRadius)) := by
    simp only [physicsGroundHeight]
    rw [if_pos hin]
  rw [hv1, hv2, centerHoleDepth, centerHoleRadius]
  rw [centerHoleRadius] at hin1
  have h09 : (0.3 : ℝ) * 0.3 = 0.09 := by norm_num
  have key1 := mul_self_le_mul_self h1nn hle
  have key2 := mul_self_lt_mul_self h1nn hin1
  ring_nf at key1 key2
  constructor
  · simp only [div_mul_div_comm, h09]
    ring_nf
    linarith [key1]
  · simp only [div_mul_div_comm, h09]
    ring_nf
    linarith [key2]

theorem center_hole_parabola_monotone_witness :
    (Real.sqrt ((0.1 : ℝ) * 0.1 + 0 * 0) ≤ Real.sqrt ((0.2 : ℝ) * 0.2 + 0 * 0) ∧
      Real.sqrt ((0.2 : ℝ) * 0.2 + 0 * 0) < centerHoleRadius) ∧
    (physicsGroundHeight [] [] ⟨1, 0, 1, 0, 1, 0⟩ 0.1 0 ≤
        physicsGroundHeight [] [] ⟨1, 0, 1, 0, 1, 0⟩ 0.2 0 ∧
      physicsGroundHeight [] [] ⟨1, 0, 1, 0, 1, 0⟩ 0.1 0 ≤ 0) := by
  have h1 : Real.sqrt ((0.1 : ℝ) * 0.1 + 0 * 0) = 0.1 := sqrt_self_sq 0.1 (by norm_num)
  have h2 : Real.sqrt ((0.2 : ℝ) * 0.2 + 0 * 0) = 0.2 := sqrt_self_sq 0.2 (by norm_num)
  have ha : Real.sqrt ((0.1 : ℝ) * 0.1 + 0 * 0) ≤ Real.sqrt ((0.2 : ℝ) * 0.2 + 0 * 0) := by
    rw [h1, h2]; norm_num
  have hb : Real.sqrt ((0.2 : ℝ) * 0.2 + 0 * 0) < centerHoleRadius := by
    rw [h2]; norm_num [centerHoleRadius]
  exact ⟨⟨ha, hb⟩, center_hole_parabola_monotone [] [] ⟨1, 0, 1, 0, 1, 0⟩ 0.1 0 0.2 0 ha hb⟩

/-- C3: at points outside the center hole, the synthesized heightfield
combines feature contributions additively (the full height equals the
featureless height plus the sum of all rock and hill profiles), while the
`getHeightAt` fallback query takes the maximum: its result is at least
the base bowl/rim shape and at least each in-range feature's profile, so
overlapping obstacles are reported as at least as tall as the tallest
single one. -/
theorem feature_overlap_semantics (rocks : List Rock) (hills : List Hill) (d : Draws)
    (x z : ℝ) (hout : centerHoleRadius ≤ Real.sqrt (x * x + z * z)) :
    (physicsGroundHeight rocks hills d x z =
      physicsGroundHeight [] [] d x z + (rocks.map (rockContribPhys x z)).sum +
        (hills.map (hillContribPhys x z)).sum) ∧
    fallbackBase x z ≤ getHeightAtFallback rocks hills x z ∧
    (∀ r ∈ rocks, Real.sqrt ((x - r.x) * (x - r.x) + (z - r.z) * (z - r.z)) < r.size →
      queryRockProfile x z r ≤ getHeightAtFallback rocks hills x z) ∧
    (∀ hl ∈ hills,
      Real.sqrt ((x - hl.x) * (x - hl.x) + (z - hl.z) * (z - hl.z)) < hl.radius →
      queryHillProfile x z hl ≤ getHeightAtFallback rocks hills x z) := by
  have hn : ¬ (Real.sqrt (x * x + z * z) < centerHoleRadius) := not_lt.mpr hout
  refine ⟨?_, ?_, ?_, ?_⟩
  · simp only [physicsGroundHeight, List.map_nil, List.sum_nil, add_zero]
    rw [if_neg hn, if_neg hn]
    split_ifs <;> ring
  · exact le_trans
      (le_foldl_condMax (fun r : Rock =>
          Real.sqrt ((x - r.x) * (x - r.x) + (z - r.z) * (z - r.z)) < r.size)
        (queryRockProfile x z) rocks (fallbackBase x z))
      (le_foldl_condMax (fun hl : Hill =>
          Real.sqrt ((x - hl.x) * (x - hl.x) + (z - hl.z) * (z - hl.z)) < hl.radius)
        (queryHillProfile x z) hills _)
  · intro r hr hc
    exact le_trans
      (foldl_condMax_ge_elem (fun r : Rock =>
          Real.sqrt ((x - r.x) * (x - r.x) + (z - r.z) * (z - r.z)) < r.size)
        (queryRockProfile x z) rocks (fallbackBase x z) r hr hc)
      (le_foldl_condMax (fun hl : Hill =>
          Real.sqrt ((x - hl.x) * (x - hl.x) + (z - hl.z) * (z - hl.z)) < hl.radius)
        (queryHillProfile x z) hills _)
  · intro hl hhl hc
    exact foldl_condMax_ge_elem (fun hl : Hill =>
        Real.sqrt ((x - hl.x) * (x - hl.x) + (z - hl.z) * (z - hl.z)) < hl.radius)
      (queryHillProfile x z) hills _ hl hhl hc

theorem feature_overlap_semantics_witness :
    (centerHoleRadius ≤ Real.sqrt ((2 : ℝ) * 2 + 0 * 0)) ∧
    (physicsGroundHeight [⟨2, 0, 0.1, 0.08⟩, ⟨2.05, 0, 0.1, 0.07⟩] [] ⟨1, 0, 1, 0, 1, 0⟩ 2 0 =
      physicsGroundHeight [] [] ⟨1, 0, 1, 0, 1, 0⟩ 2 0 +
        (List.map (rockContribPhys 2 0) [⟨2, 0, 0.1, 0.08⟩, ⟨2.05, 0, 0.1, 0.07⟩]).sum +
        (List.map (hillContribPhys 2 0) []).sum) := by
  have h : centerHoleRadius ≤ Real.sqrt ((2 : ℝ) * 2 + 0 * 0) := by
    rw [sqrt_self_sq 2 (by norm_num)]
    norm_num [centerHoleRadius]
  exact ⟨h, (feature_overlap_semantics [⟨2, 0, 0.1, 0.08⟩, ⟨2.05, 0, 0.1, 0.07⟩] []
    ⟨1, 0, 1, 0, 1, 0⟩ 2 0 h).1⟩

/-- C7: on perfectly flat terrain (the height query constant over all
positions), the dynamics post-processor never triggers the uphill-damping
branch (the forward height delta is 0, not above the 0.001 epsilon) and
the settling-roll injection adds nothing (all finite-difference gradients
are 0, below the 0.05 threshold); only the uniform per-step
micro-resistance factor 0.998 is applied to the horizontal velocity. -/
theorem flat_terrain_post_processor (hq : ℝ → ℝ → ℝ) (c : ℝ) (hflat : ∀ a b, hq a b = c)
    (px py pz : ℝ) (v : Vel) (hy : py < 0.5)
    (hmove : Real.sqrt (v.x * v.x + v.z * v.z) > 0.01) :
    playerTerrainStep hq px py pz v = Vel.mk (v.x * 0.998) v.y (v.z * 0.998) := by
  have h1 : ¬ ((c - c : ℝ) > 0.001) := by norm_num
  have h2 : ¬ (|(c - c : ℝ) / (2 * 0.03)| > 0.05 ∨ |(c - c : ℝ) / (2 * 0.03)| > 0.05) := by
    norm_num
  simp only [playerTerrainStep, hflat]
  rw [if_pos hy, if_pos hmove, if_neg h1, if_neg h2, ite_self]

theorem flat_terrain_post_processor_witness :
    ((∀ a b : ℝ, (fun _ _ => (0 : ℝ)) a b = 0) ∧ (0.2 : ℝ) < 0.5 ∧
      Real.sqrt ((1 : ℝ) * 1 + 0 * 0) > 0.01) ∧
    playerTerrainStep (fun _ _ => 0) 0 0.2 0 ⟨1, 0, 0⟩ =
      Vel.mk (1 * 0.998) 0 (0 * 0.998) := by
  have hf : ∀ a b : ℝ, (fun _ _ => (0 : ℝ)) a b = 0 := fun _ _ => rfl
  have hy : (0.2 : ℝ) < 0.5 := by norm_num
  have hm : Real.sqrt ((1 : ℝ) * 1 + 0 * 0) > 0.01 := by
    rw [sqrt_self_sq 1 (by norm_num)]
    norm_num
  exact ⟨⟨hf, hy, hm⟩, flat_terrain_post_processor (fun _ _ => 0) 0 hf 0 0.2 0 ⟨1, 0, 0⟩ hy hm⟩

/-- C8: whenever the forward height delta exceeds the 0.001 epsilon, the
post-processor multiplies both horizontal velocity components by the
slope-dependent factor `1 − (min(0.03, Δ)/0.03)² · 0.07` (composed with
the separate uniform 0.998 micro-resistance); that factor is strictly
below 1, at least 0.93, and monotonically non-increasing in the delta. -/
theorem uphill_damping_factor (hq : ℝ → ℝ → ℝ) (px py pz : ℝ) (v : Vel)
    (hy1 : 0.1 ≤ py) (hy2 : py < 0.5)
    (hmove : Real.sqrt (v.x * v.x + v.z * v.z) > 0.01)
    (hup : hq (px + v.x / Real.sqrt (v.x * v.x + v.z * v.z) * 0.03)
        (pz + v.z / Real.sqrt (v.x * v.x + v.z * v.z) * 0.03) - hq px pz > 0.001) :
    ((playerTerrainStep hq px py pz v).x =
        v.x * uphillFactor (hq (px + v.x / Real.sqrt (v.x * v.x + v.z * v.z) * 0.03)
          (pz + v.z / Real.sqrt (v.x * v.x + v.z * v.z) * 0.03) - hq px pz) * 0.998 ∧
      (playerTerrainStep hq px py pz v).z =
        v.z * uphillFactor (hq (px + v.x / Real.sqrt (v.x * v.x + v.z * v.z) * 0.03)
          (pz + v.z / Real.sqrt (v.x * v.x + v.z * v.z) * 0.03) - hq px pz) * 0.998) ∧
    (∀ δ : ℝ, 0.001 < δ → uphillFactor δ < 1 ∧ 0.93 ≤ uphillFactor δ) ∧
    (∀ δ₁ δ₂ : ℝ, 0.001 < δ₁ → δ₁ ≤ δ₂ → uphillFactor δ₂ ≤ uphillFactor δ₁) := by
  refine ⟨?_, ?_, ?_⟩
  · have hns : ∀ s : ℝ, ¬ (s < 0.5 ∧ py < 0.1) := fun s hcon =>
      absurd hcon.2 (not_lt.mpr hy1)
    simp only [playerTerrainStep]
    rw [if_pos hy2, if_pos hmove, if_pos hup, if_neg (hns _)]
    exact ⟨rfl, rfl⟩
  · intro δ hδ
    have hmin1 : min 0.03 δ ≤ 0.03 := min_le_left _ _
    have hmin2 : (0 : ℝ) < min 0.03 δ := lt_min (by norm_num) (lt_trans (by norm_num) hδ)
    have hs1 : min 0.03 δ / 0.03 ≤ 1 := by
      rw [div_le_one (by norm_num : (0 : ℝ) < 0.03)]
      exact hmin1
    have hs0 : (0 : ℝ) < min 0.03 δ / 0.03 := div_pos hmin2 (by norm_num)
    rw [uphillFactor]
    constructor
    · nlinarith [mul_pos hs0 hs0]
    · nlinarith [mul_self_le_mul_self (le_of_lt hs0) hs1]
  · intro δ₁ δ₂ h1 h2
    have hm12 : min 0.03 δ₁ ≤ min 0.03 δ₂ := min_le_min (le_refl _) h2
    have hm0 : (0 : ℝ) < min 0.03 δ₁ := lt_min (by norm_num) (lt_trans (by norm_num) h1)
    have hs12 : min 0.03 δ₁ / 0.03 ≤ min 0.03 δ₂ / 0.03 :=
      (div_le_div_iff_of_pos_right (by norm_num : (0 : ℝ) < 0.03)).mpr hm12
    have hs0 : (0 : ℝ) ≤ min 0.03 δ₁ / 0.03 := le_of_lt (div_pos hm0 (by norm_num))
    rw [uphillFactor, uphillFactor]
    nlinarith [mul_self_le_mul_self hs0 hs12]

theorem uphill_damping_factor_witness :
    ((0.1 : ℝ) ≤ 0.2 ∧ (0.2 : ℝ) < 0.5 ∧ Real.sqrt ((1 : ℝ) * 1 + 0 * 0) > 0.01 ∧
      (fun a _ => a) ((0 : ℝ) + 1 / Real.sqrt ((1 : ℝ) * 1 + 0 * 0) * 0.03)
          ((0 : ℝ) + 0 / Real.sqrt ((1 : ℝ) * 1 + 0 * 0) * 0.03) -
        (fun a _ => a) (0 : ℝ) (0 : ℝ) > 0.001) ∧
    ((playerTerrainStep (fun a _ => a) 0 0.2 0 ⟨1, 0, 0⟩).x =
        1 * uphillFactor ((fun a _ => a) ((0 : ℝ) + 1 / Real.sqrt ((1 : ℝ) * 1 + 0 * 0) * 0.03)
          ((0 : ℝ) + 0 / Real.sqrt ((1 : ℝ) * 1 + 0 * 0) * 0.03) -
            (fun a _ => a) (0 : ℝ) (0 : ℝ)) * 0.998 ∧
      (playerTerrainStep (fun a _ => a) 0 0.2 0 ⟨1, 0, 0⟩).z =
        0 * uphillFactor ((fun a _ => a) ((0 : ℝ) + 1 / Real.sqrt ((1 : ℝ) * 1 + 0 * 0) * 0.03)
          ((0 : ℝ) + 0 / Real.sqrt ((1 : ℝ) * 1 + 0 * 0) * 0.03) -
            (fun a _ => a) (0 : ℝ) (0 : ℝ)) * 0.998) := by
  have h1 : (0.1 : ℝ) ≤ 0.2 := by norm_num
  have h2 : (0.2 : ℝ) < 0.5 := by norm_num
  have hm : Real.sqrt ((1 : ℝ) * 1 + 0 * 0) > 0.01 := by
    rw [sqrt_self_sq 1 (by norm_num)]
    norm_num
  have hup : (fun a _ => a) ((0 : ℝ) + 1 / Real.sqrt ((1 : ℝ) * 1 + 0 * 0) * 0.03)
      ((0 : ℝ) + 0 / Real.sqrt ((1 : ℝ) * 1 + 0 * 0) * 0.03) -
        (fun a _ => a) (0 : ℝ) (0 : ℝ) > 0.001 := by
    show (0 : ℝ) + 1 / Real.sqrt ((1 : ℝ) * 1 + 0 * 0) * 0.03 - 0 > 0.001
    rw [sqrt_self_sq 1 (by norm_num)]
    norm_num
  exact ⟨⟨h1, h2, hm, hup⟩,
    (uphill_damping_factor (fun a _ => a) 0 0.2 0 ⟨1, 0, 0⟩ h1 h2 hm hup).1⟩

/-- C6: in any run of `generateObstaclePositions` in which no placement
exhausted its 100-attempt retry budget (no warning was logged), every
accepted position satisfies the clearance constraints: rocks are pairwise
at least 0.5 apart and at least `1.2 · circleRadius` from the center;
hills are at least 0.6 from every rock, pairwise at least 0.8 apart, and
at least `1.3 · circleRadius` from the center.  Moreover, when a budget
is exhausted (all 101 candidates invalid), the loop accepts the last
candidate with a logged warning instead of failing. -/
theorem obstacle_placement_clearance (sz : ℝ) (rockCand hillCand : ℕ → ℕ → ℝ × ℝ)
    (rockSz rockHt hillRad hillHt : ℕ → ℝ)
    (hnw : (generateObstaclePositions sz rockCand hillCand rockSz rockHt hillRad hillHt).2
      = false) :
    (List.Pairwise (fun a b : Rock => 0.5 ≤ distBetween (a.x, a.z) (b.x, b.z))
        (generateObstaclePositions sz rockCand hillCand rockSz rockHt hillRad hillHt).1.1 ∧
      (∀ r ∈ (generateObstaclePositions sz rockCand hillCand rockSz rockHt hillRad
          hillHt).1.1, circleRadius * 1.2 ≤ candDistFromCenter (r.x, r.z)) ∧
      List.Pairwise (fun a b : Hill => 0.8 ≤ distBetween (a.x, a.z) (b.x, b.z))
        (generateObstaclePositions sz rockCand hillCand rockSz rockHt hillRad hillHt).1.2 ∧
      (∀ h ∈ (generateObstaclePositions sz rockCand hillCand rockSz rockHt hillRad
          hillHt).1.2,
        (∀ r ∈ (generateObstaclePositions sz rockCand hillCand rockSz rockHt hillRad
            hillHt).1.1, 0.6 ≤ distBetween (r.x, r.z) (h.x, h.z)) ∧
        circleRadius * 1.3 ≤ candDistFromCenter (h.x, h.z))) ∧
    (∀ (valid : ℝ × ℝ → Prop) (cand : ℕ → ℝ × ℝ),
      (∀ k, 1 ≤ k → k ≤ 101 → ¬ valid (cand k)) →
      placeLoop valid cand 1 101 = (cand 101, true)) := by
  rw [generateObstaclePositions, Bool.or_eq_false_iff] at hnw
  obtain ⟨hw1, hw2⟩ := hnw
  obtain ⟨hrp, hrc⟩ := placeRocks_sound sz rockCand rockSz rockHt largeRockCount hw1
  obtain ⟨hhp, hhc⟩ := placeHills_sound sz
    (placeRocks sz rockCand rockSz rockHt largeRockCount).1 hillCand hillRad hillHt
    hillCount hw2
  exact ⟨⟨hrp, hrc, hhp, hhc⟩,
    fun valid cand hall => placeLoop_exhausts valid cand 101 1 (by norm_num)
      (by norm_num) (by norm_num) hall⟩

/-! ### A concrete non-exhausting run of obstacle placement

With terrain size 20, rock candidates on the positive x-axis one unit
apart and hill candidates on the negative x-axis one unit apart, every
placement succeeds on its first attempt. -/

/-- Witness random stream for rock placement: rock `i`'s first candidate
maps to world position `(4 + i, 0)`. -/
def witnessRockCand : ℕ → ℕ → ℝ × ℝ := fun i _ => ((14 + (i : ℝ)) / 20, 1 / 2)

/-- Witness random stream for hill placement: hill `i`'s first candidate
maps to world position `(-4 - i, 0)`. -/
def witnessHillCand : ℕ → ℕ → ℝ × ℝ := fun i _ => ((6 - (i : ℝ)) / 20, 1 / 2)

/-- Witness size/height draws (all zero). -/
def witnessZeroDraw : ℕ → ℝ := fun _ => 0

def witnessRockList (n : ℕ) : List Rock :=
  (List.range n).map fun i : ℕ => ⟨4 + (i : ℝ), 0, 0.04, 0.05⟩

def witnessHillList (n : ℕ) : List Hill :=
  (List.range n).map fun i : ℕ => ⟨-4 - (i : ℝ), 0, 0.2, 0.05⟩

lemma witness_placeRocks :
    ∀ n, placeRocks 20 witnessRockCand witnessZeroDraw witnessZeroDraw n =
      (witnessRockList n, false) := by
  intro n
  induction n with
  | zero => rfl
  | succ m ih =>
    have hp : candidatePos 20 (witnessRockCand m 1) = (4 + (m : ℝ), 0) := by
      simp only [candidatePos, witnessRockCand]
      rw [Prod.mk.injEq]
      refine ⟨?_, by norm_num⟩
      field_simp
      ring
    have hv : rockCandidateOk (witnessRockList m) (candidatePos 20 (witnessRockCand m 1)) := by
      rw [hp]
      constructor
      · intro r hr
        rw [witnessRockList] at hr
        obtain ⟨i, hi, hfi⟩ := List.mem_map.mp hr
        rw [List.mem_range] at hi
        subst hfi
        apply not_lt.mpr
        refine le_distBetween _ _ _ (by norm_num) ?_
        show (0.5 : ℝ) * 0.5 ≤
          ((4 + (i : ℝ)) - (4 + (m : ℝ))) * ((4 + (i : ℝ)) - (4 + (m : ℝ))) +
            ((0 : ℝ) - 0) * ((0 : ℝ) - 0)
        have hcast : (i : ℝ) + 1 ≤ (m : ℝ) := by exact_mod_cast hi
        nlinarith [hcast]
      · apply not_lt.mpr
        refine le_candDistFromCenter _ _ (by norm_num [circleRadius]) ?_
        show circleRadius * 1.2 * (circleRadius * 1.2) ≤
          (4 + (m : ℝ)) * (4 + (m : ℝ)) + (0 : ℝ) * 0
        have hm0 : (0 : ℝ) ≤ (m : ℝ) := Nat.cast_nonneg m
        rw [circleRadius]
        nlinarith [hm0]
    have ih1 : (placeRocks 20 witnessRockCand witnessZeroDraw witnessZeroDraw m).1 =
        witnessRockList m := by rw [ih]
    have ih2 : (placeRocks 20 witnessRockCand witnessZeroDraw witnessZeroDraw m).2 =
        false := by rw [ih]
    rw [placeRocks_succ, ih1, ih2,
      placeLoop_first_valid (rockCandidateOk (witnessRockList m))
        (fun k => candidatePos 20 (witnessRockCand m k)) hv]
    simp only [hp, witnessRockList, List.range_succ, List.map_append, List.map_cons,
      List.map_nil, witnessZeroDraw, Bool.or_self]
    norm_num

lemma witness_placeHills :
    ∀ n, placeHills 20 (witnessRockList 8) witnessHillCand witnessZeroDraw
        witnessZeroDraw n = (witnessHillList n, false) := by
  intro n
  induction n with
  | zero => rfl
  | succ m ih =>
    have hp : candidatePos 20 (witnessHillCand m 1) = (-4 - (m : ℝ), 0) := by
      simp only [candidatePos, witnessHillCand]
      rw [Prod.mk.injEq]
      refine ⟨?_, by norm_num⟩
      field_simp
      ring
    have hv : hillCandidateOk (witnessRockList 8) (witnessHillList m)
        (candidatePos 20 (witnessHillCand m 1)) := by
      rw [hp]
      refine ⟨?_, ?_, ?_⟩
      · intro r hr
        rw [witnessRockList] at hr
        obtain ⟨j, hj, hfj⟩ := List.mem_map.mp hr
        rw [List.mem_range] at hj
        subst hfj
        apply not_lt.mpr
        refine le_distBetween _ _ _ (by norm_num) ?_
        show (0.6 : ℝ) * 0.6 ≤
          ((4 + (j : ℝ)) - (-4 - (m : ℝ))) * ((4 + (j : ℝ)) - (-4 - (m : ℝ))) +
            ((0 : ℝ) - 0) * ((0 : ℝ) - 0)
        have hj0 : (0 : ℝ) ≤ (j : ℝ) := Nat.cast_nonneg j
        have hm0 : (0 : ℝ) ≤ (m : ℝ) := Nat.cast_nonneg m
        nlinarith [hj0, hm0]
      · intro h hh
        rw [witnessHillList] at hh
        obtain ⟨i, hi, hfi⟩ := List.mem_map.mp hh
        rw [List.mem_range] at hi
        subst hfi
        apply not_lt.mpr
        refine le_distBetween _ _ _ (by norm_num) ?_
        show (0.8 : ℝ) * 0.8 ≤
          ((-4 - (i : ℝ)) - (-4 - (m : ℝ))) * ((-4 - (i : ℝ)) - (-4 - (m : ℝ))) +
            ((0 : ℝ) - 0) * ((0 : ℝ) - 0)
        have hcast : (i : ℝ) + 1 ≤ (m : ℝ) := by exact_mod_cast hi
        nlinarith [hcast]
      · apply not_lt.mpr
        refine le_candDistFromCenter _ _ (by norm_num [circleRadius]) ?_
        show circleRadius * 1.3 * (circleRadius * 1.3) ≤
          (-4 - (m : ℝ)) * (-4 - (m : ℝ)) + (0 : ℝ) * 0
        have hm0 : (0 : ℝ) ≤ (m : ℝ) := Nat.cast_nonneg m
        rw [circleRadius]
        nlinarith [hm0]
    have ih1 : (placeHills 20 (witnessRockList 8) witnessHillCand witnessZeroDraw
        witnessZeroDraw m).1 = witnessHillList m := by rw [ih]
    have ih2 : (placeHills 20 (witnessRockList 8) witnessHillCand witnessZeroDraw
        witnessZeroDraw m).2 = false := by rw [ih]
    rw [placeHills_succ, ih1, ih2,
      placeLoop_first_valid (hillCandidateOk (witnessRockList 8) (witnessHillList m))
        (fun k => candidatePos 20 (witnessHillCand m k)) hv]
    simp only [hp, witnessHillList, List.range_succ, List.map_append, List.map_cons,
      List.map_nil, witnessZeroDraw, Bool.or_self]
    norm_num

theorem obstacle_placement_clearance_witness :
    ((generateObstaclePositions 20 witnessRockCand witnessHillCand witnessZeroDraw
        witnessZeroDraw witnessZeroDraw witnessZeroDraw).2 = false) ∧
    ((List.Pairwise (fun a b : Rock => 0.5 ≤ distBetween (a.x, a.z) (b.x, b.z))
        (generateObstaclePositions 20 witnessRockCand witnessHillCand witnessZeroDraw
          witnessZeroDraw witnessZeroDraw witnessZeroDraw).1.1 ∧
      (∀ r ∈ (generateObstaclePositions 20 witnessRockCand witnessHillCand witnessZeroDraw
          witnessZeroDraw witnessZeroDraw witnessZeroDraw).1.1,
        circleRadius * 1.2 ≤ candDistFromCenter (r.x, r.z)) ∧
      List.Pairwise (fun a b : Hill => 0.8 ≤ distBetween (a.x, a.z) (b.x, b.z))
        (generateObstaclePositions 20 witnessRockCand witnessHillCand witnessZeroDraw
          witnessZeroDraw witnessZeroDraw witnessZeroDraw).1.2 ∧
      (∀ h ∈ (generateObstaclePositions 20 witnessRockCand witnessHillCand witnessZeroDraw
          witnessZeroDraw witnessZeroDraw witnessZeroDraw).1.2,
        (∀ r ∈ (generateObstaclePositions 20 witnessRockCand witnessHillCand witnessZeroDraw
            witnessZeroDraw witnessZeroDraw witnessZeroDraw).1.1,
          0.6 ≤ distBetween (r.x, r.z) (h.x, h.z)) ∧
        circleRadius * 1.3 ≤ candDistFromCenter (h.x, h.z))) ∧
    (∀ (valid : ℝ × ℝ → Prop) (cand : ℕ → ℝ × ℝ),
      (∀ k, 1 ≤ k → k ≤ 101 → ¬ valid (cand k)) →
      placeLoop valid cand 1 101 = (cand 101, true))) := by
  have hnw : (generateObstaclePositions 20 witnessRockCand witnessHillCand witnessZeroDraw
      witnessZeroDraw witnessZeroDraw witnessZeroDraw).2 = false := by
    simp only [generateObstaclePositions, largeRockCount, hillCount,
      witness_placeRocks 8, witness_placeHills 6, Bool.or_self]
  exact ⟨hnw, obstacle_placement_clearance 20 witnessRockCand witnessHillCand
    witnessZeroDraw witnessZeroDraw witnessZeroDraw witnessZeroDraw hnw⟩

end

end MarbleGame
